import Mathlib

/-!
Verification development for the `stylus-token-sale` contract
(`src/src/lib.rs`, entrypoint struct `TokenSaleWithTokenizedVesting`).

Shallow embedding conventions:
* `U256` values are modelled as `Nat`.  All quantities handled by the
  contract (timestamps, token amounts bounded by the sale cap, prices)
  are far below `2^256`, so unbounded naturals coincide with the EVM
  word arithmetic on the modelled executions; the one subtraction the
  source performs (`current_time - last_user_claim_timestamp`) is only
  reached under the monotonic-clock hypotheses stated in the theorems.
* `Address` is modelled as `Nat`; the zero address (`Address::default()`)
  is `0`.
* Host-environment inputs that Stylus provides per call (`msg::sender()`,
  `block::timestamp()`, the outcome of external `IERC20` transfers and of
  the external `IERC721::ownerOf` query) are grouped in an `Env` record
  passed to each operation.
* External value movements (`IERC20::transfer` / `transferFrom`) are
  recorded in a `calls` log field of the state at the exact program point
  where the source performs them; a transfer outcome other than
  `Ok(true)` is modelled by `Env.transferOk = false`, which the source
  maps to the `TransferFailed` error in every case.
* Each public operation is a function `... → Except Errors State`.  The
  Stylus/EVM host discards every storage write of an operation that
  returns an error (revert-on-error): `run` below realises exactly that
  semantics, returning the pre-state whenever the operation errors.
* `evm::log` event emissions carry no state and are omitted.
-/

namespace TokenSale

/-- Ethereum addresses, modelled as naturals; `0` is `Address::default()`. -/
abbrev Address := Nat

/-- The error enum of the contract (`sol!` error declarations, exported as
the Rust `Errors` enum). -/
inductive Errors where
  | OnlyOwner
  | NotInitialized
  | AlreadyInitialized
  | ZeroValueArgumentInjected
  | InvalidPercentage
  | VestingLengthTooShort
  | VestingLengthTooLong
  | OnlyOnePurchase
  | SoldOut
  | VestingNotEnabled
  | NoTokensVested
  | NoTokensPurchased
  | AlreadyTokenized
  | AllTokensClaimed
  | TokensAreVested
  | TransferFailed
  deriving DecidableEq, Repr

/-- External calls the contract makes through its ERC20 collaborators,
logged at the program point where the source performs them. -/
inductive ExtCall where
  /-- `IERC20::transfer_from(token, src, dst, amount)` (payment pull in
  `purchase_tokens`). -/
  | erc20TransferFrom (token src dst amount : Nat)
  /-- `IERC20::transfer(token, dst, amount)` (release in the claim paths). -/
  | erc20Transfer (token dst amount : Nat)
  deriving DecidableEq, Repr

/-- Persistent storage of `TokenSaleWithTokenizedVesting` (the
`sol_storage!` block), plus the ghost log `calls` of external transfers. -/
structure State where
  initialized : Bool
  owner : Address
  token : Address
  currency : Address
  price_per_token : Nat
  total_tokens_available : Nat
  total_vesting_length_in_seconds : Nat
  nft_claim : Address
  total_tokens_purchased : Nat
  tokens_purchased : Address → Nat
  tokens_purchased_at : Address → Nat
  tokens_claimed : Address → Nat
  tokens_claimed_at : Address → Nat
  nft_claim_token_id : Address → Nat
  calls : List ExtCall

/-- Per-call host environment: caller, block timestamp, and the outcomes
of the external collaborator calls the operation may make. -/
structure Env where
  sender : Address
  timestamp : Nat
  /-- `true` iff an `IERC20` transfer performed by this operation returns
  `Ok(true)`; both `Ok(false)` and `Err(_)` are mapped by the source to
  `TransferFailed`, so a single boolean captures the distinction used. -/
  transferOk : Bool
  /-- Result of `IERC721::owner_of(token_id)`: `some a` for `Ok(a)`,
  `none` for `Err(_)` (a reverting registry call). -/
  nftOwner : Nat → Option Address

/-- Write `v` at key `k` of an account-keyed map (a `setter(...).set(...)`
on one of the five storage mappings). -/
def store (m : Address → Nat) (k v : Nat) : Address → Nat :=
  fun a => if a = k then v else m a

/-- `U256::from(1e12)`, the scale factor used in the claim arithmetic. -/
def SCALE : Nat := 10 ^ 12

/-- One day in seconds, minimum vesting length (`MIN_VESTING_LENGTH`). -/
def MIN_VESTING_LENGTH : Nat := 86400

/-- 365 days in seconds, maximum vesting length (`MAX_VESTING_LENGTH`). -/
def MAX_VESTING_LENGTH : Nat := 31536000

/-- The all-zero storage a freshly deployed (not yet initialized)
contract instance starts from. -/
def initialState : State where
  initialized := false
  owner := 0
  token := 0
  currency := 0
  price_per_token := 0
  total_tokens_available := 0
  total_vesting_length_in_seconds := 0
  nft_claim := 0
  total_tokens_purchased := 0
  tokens_purchased := fun _ => 0
  tokens_purchased_at := fun _ => 0
  tokens_claimed := fun _ => 0
  tokens_claimed_at := fun _ => 0
  nft_claim_token_id := fun _ => 0
  calls := []

/-- `validate_is_initialized`: error unless the instance is initialized. -/
def validate_is_initialized (s : State) : Except Errors Unit :=
  if s.initialized = false then .error .NotInitialized else .ok ()

/-- `validate_initialization`: error if the instance is already initialized. -/
def validate_initialization (s : State) : Except Errors Unit :=
  if s.initialized = true then .error .AlreadyInitialized else .ok ()

/-- `validate_sender_is_owner`: error unless `msg::sender()` is the stored
contract owner. -/
def validate_sender_is_owner (env : Env) (s : State) : Except Errors Unit :=
  if env.sender ≠ s.owner then .error .OnlyOwner else .ok ()

/-- `validate_price_per_token`: reject a zero price. -/
def validate_price_per_token (price_per_token : Nat) : Except Errors Unit :=
  if price_per_token = 0 then .error .ZeroValueArgumentInjected else .ok ()

/-- `validate_address`: reject the zero address. -/
def validate_address (value : Address) : Except Errors Unit :=
  if value = 0 then .error .ZeroValueArgumentInjected else .ok ()

/-- `validate_total_tokens_for_sale`: reject a zero token supply. -/
def validate_total_tokens_for_sale (total_tokens : Nat) : Except Errors Unit :=
  if total_tokens = 0 then .error .ZeroValueArgumentInjected else .ok ()

/-- `validate_vesting_length`: a non-zero vesting length must lie in
`[MIN_VESTING_LENGTH, MAX_VESTING_LENGTH]`. -/
def validate_vesting_length (vesting_length : Nat) : Except Errors Unit :=
  if vesting_length ≠ 0 then
    if vesting_length < MIN_VESTING_LENGTH then .error .VestingLengthTooShort
    else if vesting_length > MAX_VESTING_LENGTH then .error .VestingLengthTooLong
    else .ok ()
  else .ok ()

/-- `validate_vesting_enabled`: error when the vesting length is zero,
otherwise return it. -/
def validate_vesting_enabled (s : State) : Except Errors Nat :=
  if s.total_vesting_length_in_seconds = 0 then .error .VestingNotEnabled
  else .ok s.total_vesting_length_in_seconds

/-- The owner the contract sees for an NFT: the registry's answer, or the
zero address when the external `owner_of` call reverts (the `match` in
`validate_sender_owns_nft`). -/
def resolvedNftOwner (env : Env) (token_id : Nat) : Address :=
  match env.nftOwner token_id with
  | some a => a
  | none => 0

/-- `validate_sender_owns_nft`: error unless `msg::sender()` is the
resolved owner of `token_id` in the external ERC721 registry. -/
def validate_sender_owns_nft (env : Env) (token_id : Nat) : Except Errors Unit :=
  if resolvedNftOwner env token_id ≠ env.sender then .error .OnlyOwner else .ok ()

/-- `init`: one-time configuration of the sale. -/
def init (env : Env) (s : State) (token currency : Address)
    (price_per_token total_tokens_available total_vesting_length_in_seconds : Nat)
    (nft_claim : Address) : Except Errors State :=
  match validate_initialization s with
  | .error e => .error e
  | .ok _ =>
  match validate_price_per_token price_per_token with
  | .error e => .error e
  | .ok _ =>
  match validate_address token with
  | .error e => .error e
  | .ok _ =>
  match validate_address currency with
  | .error e => .error e
  | .ok _ =>
  match validate_total_tokens_for_sale total_tokens_available with
  | .error e => .error e
  | .ok _ =>
  match validate_vesting_length total_vesting_length_in_seconds with
  | .error e => .error e
  | .ok _ =>
  match validate_address nft_claim with
  | .error e => .error e
  | .ok _ =>
    .ok { s with
      initialized := true
      owner := env.sender
      token := token
      currency := currency
      price_per_token := price_per_token
      total_tokens_available := total_tokens_available
      total_vesting_length_in_seconds := total_vesting_length_in_seconds
      nft_claim := nft_claim }

/-- `purchase_tokens`: record a one-time purchase and pull the payment. -/
def purchase_tokens (env : Env) (s : State) (amount : Nat) : Except Errors State :=
  match validate_is_initialized s with
  | .error e => .error e
  | .ok _ =>
    let tokens_purchased_by_user := s.tokens_purchased env.sender
    if tokens_purchased_by_user > 0 then .error .OnlyOnePurchase
    else
      let total_tokens_purchased := s.total_tokens_purchased
      -- Source: `amount * U256::from(1_i32.pow(18))`; note `1_i32.pow(18) = 1`.
      let purchase_amount := amount * 1 ^ 18
      if total_tokens_purchased + purchase_amount > s.total_tokens_available then
        .error .SoldOut
      else
        let cost := amount * s.price_per_token
        let s' := { s with
          tokens_purchased := store s.tokens_purchased env.sender purchase_amount
          tokens_purchased_at := store s.tokens_purchased_at env.sender env.timestamp
          total_tokens_purchased := total_tokens_purchased + purchase_amount
          calls := ExtCall.erc20TransferFrom s.currency env.sender s.owner cost :: s.calls }
        if env.transferOk then .ok s' else .error .TransferFailed

/-- `enable_tokenized_vesting`: one-time nomination of the NFT whose owner
may claim the sender's vested tokens. -/
def enable_tokenized_vesting (env : Env) (s : State) (token_id : Nat) :
    Except Errors State :=
  match validate_vesting_enabled s with
  | .error e => .error e
  | .ok _ =>
    let tokens_purchased_by_user := s.tokens_purchased env.sender
    if tokens_purchased_by_user = 0 then .error .NoTokensVested
    else if s.nft_claim_token_id env.sender ≠ 0 then .error .AlreadyTokenized
    else if token_id = 0 then .error .ZeroValueArgumentInjected
    else if s.tokens_claimed env.sender = tokens_purchased_by_user then
      .error .AllTokensClaimed
    else
      .ok { s with
        nft_claim_token_id := store s.nft_claim_token_id env.sender token_id }

/-- `claim_tokens_from_user`: the shared vesting-claim engine, releasing
the tranche unlocked since the last claim from `user`'s record to
`recipient`. -/
def claim_tokens_from_user (env : Env) (s : State) (user recipient : Address) :
    Except Errors State :=
  match validate_vesting_enabled s with
  | .error e => .error e
  | .ok total_vesting_length_in_seconds =>
    let tokens_purchased_by_user := s.tokens_purchased user
    if tokens_purchased_by_user = 0 then .error .NoTokensVested
    else
      let tokens_purchased_at := s.tokens_purchased_at user
      let tokens_claimed_by_user := s.tokens_claimed user
      let last_user_claim_timestamp :=
        if tokens_claimed_by_user = 0 then tokens_purchased_at
        else s.tokens_claimed_at user
      if tokens_claimed_by_user = tokens_purchased_by_user then
        .error .AllTokensClaimed
      else
        let current_time := env.timestamp
        let last_token_claim_at := tokens_purchased_at + total_vesting_length_in_seconds
        if current_time ≥ last_token_claim_at then
          -- All remaining tokens, with the claim timestamp clamped to the end.
          let amount := tokens_purchased_by_user - tokens_claimed_by_user
          let s' := { s with
            tokens_claimed := store s.tokens_claimed user tokens_purchased_by_user
            tokens_claimed_at := store s.tokens_claimed_at user last_token_claim_at
            calls := ExtCall.erc20Transfer s.token recipient amount :: s.calls }
          if env.transferOk then .ok s' else .error .TransferFailed
        else
          let time_since_last_claim := current_time - last_user_claim_timestamp
          let tokens_per_second_to_claim :=
            tokens_purchased_by_user * SCALE / total_vesting_length_in_seconds / SCALE
          let transfer_amount := time_since_last_claim * tokens_per_second_to_claim
          let s' := { s with
            tokens_claimed :=
              store s.tokens_claimed user (tokens_claimed_by_user + transfer_amount)
            tokens_claimed_at := store s.tokens_claimed_at user current_time
            calls := ExtCall.erc20Transfer s.token recipient transfer_amount :: s.calls }
          if env.transferOk then .ok s' else .error .TransferFailed

/-- `claim_tokens`: direct claim by the purchaser, barred once the claim
has been tokenized. -/
def claim_tokens (env : Env) (s : State) : Except Errors State :=
  if s.nft_claim_token_id env.sender ≠ 0 then .error .AlreadyTokenized
  else claim_tokens_from_user env s env.sender env.sender

/-- `claim_tokens_by_nft`: claim by the current owner of the NFT recorded
for `user`; proceeds go to the caller. -/
def claim_tokens_by_nft (env : Env) (s : State) (user : Address) :
    Except Errors State :=
  match validate_sender_owns_nft env (s.nft_claim_token_id user) with
  | .error e => .error e
  | .ok _ => claim_tokens_from_user env s user env.sender

/-- `claim_unlocked_tokens`: one-time full release when vesting is not
enabled. -/
def claim_unlocked_tokens (env : Env) (s : State) : Except Errors State :=
  if s.total_vesting_length_in_seconds ≠ 0 then .error .TokensAreVested
  else if s.tokens_claimed env.sender ≠ 0 then .error .AllTokensClaimed
  else
    let tokens_purchased := s.tokens_purchased env.sender
    if tokens_purchased = 0 then .error .NoTokensPurchased
    else
      let s' := { s with
        tokens_claimed := store s.tokens_claimed env.sender tokens_purchased
        tokens_claimed_at := store s.tokens_claimed_at env.sender env.timestamp
        calls := ExtCall.erc20Transfer s.token env.sender tokens_purchased :: s.calls }
      if env.transferOk then .ok s' else .error .TransferFailed

/-- Modelled from the spec: `updatePrice(newPrice)` — the administrative
unit-price update.  The operation belongs to the repository variant that
is not under `src/`; only its authorization helper
`validate_sender_is_owner` appears in `src/src/lib.rs`.  Per the spec it
is administrative-only (`OnlyOwner` otherwise) and changes nothing but
the unit price. -/
def update_price (env : Env) (s : State) (new_price : Nat) : Except Errors State :=
  match validate_sender_is_owner env s with
  | .error e => .error e
  | .ok _ => .ok { s with price_per_token := new_price }

/-- Modelled from the spec: the `owner()` view of the administrative
account (a read of the `owner` storage slot set at initialization). -/
def owner_view (s : State) : Address := s.owner

/-- The public operations, as a syntactic type so that state sequences
can quantify over them. -/
inductive Op where
  | init (token currency price_per_token total_tokens_available
      total_vesting_length_in_seconds nft_claim : Nat)
  | purchase (amount : Nat)
  | enableTokenizedVesting (token_id : Nat)
  | claimTokens
  | claimTokensByNft (user : Address)
  | claimUnlockedTokens
  | updatePrice (new_price : Nat)
  deriving DecidableEq, Repr

/-- Dispatch an operation to its implementation. -/
def exec : Op → Env → State → Except Errors State
  | .init t c p a v n, env, s => init env s t c p a v n
  | .purchase amount, env, s => purchase_tokens env s amount
  | .enableTokenizedVesting token_id, env, s => enable_tokenized_vesting env s token_id
  | .claimTokens, env, s => claim_tokens env s
  | .claimTokensByNft user, env, s => claim_tokens_by_nft env s user
  | .claimUnlockedTokens, env, s => claim_unlocked_tokens env s
  | .updatePrice p, env, s => update_price env s p

/-- Host semantics of one call: an operation that errors reverts, leaving
the storage exactly as before. -/
def run (op : Op) (env : Env) (s : State) : State :=
  match exec op env s with
  | .ok s' => s'
  | .error _ => s

/-- Same revert semantics, specialised to the claim engine (used to talk
about the engine shared by `claim_tokens` and `claim_tokens_by_nft`). -/
def runEngine (env : Env) (s : State) (user recipient : Address) : State :=
  match claim_tokens_from_user env s user recipient with
  | .ok s' => s'
  | .error _ => s

/-- States reachable from deployment by any sequence of public calls,
with non-decreasing block timestamps; the second component is the
timestamp of the last call. -/
inductive Reachable : State → Nat → Prop where
  | base : Reachable initialState 0
  | step {s : State} {clk : Nat} (op : Op) (env : Env) :
      Reachable s clk → clk ≤ env.timestamp → Reachable (run op env s) env.timestamp

/-! ### Small facts about map updates -/

theorem store_same (m : Address → Nat) (k v : Nat) : store m k v k = v := by
  simp [store]

theorem store_other (m : Address → Nat) (k v : Nat) {a : Address} (h : a ≠ k) :
    store m k v a = m a := by
  simp [store, h]

/-! ### Arithmetic facts about the per-second unlock rate -/

/-- The per-second rate the claim engine computes:
`((p * 1e12) / v) / 1e12` — note the scale factor is divided back out
before the rate is multiplied by the elapsed time. -/
def rate (p v : Nat) : Nat := p * SCALE / v / SCALE

theorem rate_eq_div (p v : Nat) : rate p v = p / v := by
  unfold rate SCALE
  rw [Nat.div_div_eq_div_mul, Nat.mul_div_mul_right]
  norm_num

theorem rate_zero (v : Nat) : rate 0 v = 0 := by
  simp [rate_eq_div]

theorem mul_rate_le (p v d : Nat) (h : d ≤ v) : d * rate p v ≤ p := by
  rw [rate_eq_div]
  calc d * (p / v) ≤ v * (p / v) := Nat.mul_le_mul_right _ h
    _ ≤ p := by rw [Nat.mul_comm]; exact Nat.div_mul_le_self p v

/-! ### The inductive state invariant -/

/-- Per-account invariant: all recorded timestamps are in the past, and
the claimed amount is either `0`, or the full purchase, or exactly the
engine's linear formula at the recorded last-claim timestamp. -/
def UserInv (s : State) (clk : Nat) (u : Address) : Prop :=
  s.tokens_purchased_at u ≤ clk ∧ s.tokens_claimed_at u ≤ clk ∧
  (s.tokens_claimed u = 0 ∨
   s.tokens_claimed u = s.tokens_purchased u ∨
   (s.total_vesting_length_in_seconds ≠ 0 ∧
    s.tokens_purchased_at u ≤ s.tokens_claimed_at u ∧
    s.tokens_claimed_at u ≤ s.tokens_purchased_at u + s.total_vesting_length_in_seconds ∧
    s.tokens_claimed u =
      (s.tokens_claimed_at u - s.tokens_purchased_at u) *
        rate (s.tokens_purchased u) s.total_vesting_length_in_seconds))

/-- Global inductive invariant tying a state to the current clock. -/
def Inv (s : State) (clk : Nat) : Prop :=
  s.total_tokens_purchased ≤ s.total_tokens_available ∧
  (s.initialized = false →
    s.total_vesting_length_in_seconds = 0 ∧ s.total_tokens_purchased = 0 ∧
    ∀ u, s.tokens_purchased u = 0) ∧
  (∀ u, s.nft_claim_token_id u ≠ 0 →
    s.total_vesting_length_in_seconds ≠ 0 ∧ s.tokens_purchased u ≠ 0) ∧
  ∀ u, UserInv s clk u

theorem UserInv.claimed_le {s : State} {clk : Nat} {u : Address}
    (h : UserInv s clk u) : s.tokens_claimed u ≤ s.tokens_purchased u := by
  rcases h with ⟨-, -, h0 | hp | ⟨-, hpa, hca, heq⟩⟩
  · omega
  · omega
  · rw [heq]
    exact mul_rate_le _ _ _ (by omega)

theorem UserInv.claimed_zero {s : State} {clk : Nat} {u : Address}
    (h : UserInv s clk u) (hp : s.tokens_purchased u = 0) :
    s.tokens_claimed u = 0 := by
  have := h.claimed_le
  omega

theorem userInv_mono {s : State} {clk clk' : Nat} {u : Address}
    (h : UserInv s clk u) (hle : clk ≤ clk') : UserInv s clk' u := by
  rcases h with ⟨h1, h2, h3⟩
  exact ⟨by omega, by omega, h3⟩

theorem inv_mono {s : State} {clk clk' : Nat}
    (h : Inv s clk) (hle : clk ≤ clk') : Inv s clk' := by
  rcases h with ⟨h1, h2, h3, h4⟩
  exact ⟨h1, h2, h3, fun u => userInv_mono (h4 u) hle⟩

theorem inv_initial : Inv initialState 0 := by
  refine ⟨Nat.le_refl _, fun _ => ⟨rfl, rfl, fun _ => rfl⟩, fun u h => absurd rfl h, fun u => ?_⟩
  exact ⟨Nat.le_refl _, Nat.le_refl _, Or.inl rfl⟩

/-! ### Inversion lemmas: what a successful operation did -/

/-- The record `purchase_tokens` writes on success. -/
def purchaseState (env : Env) (s : State) (amount : Nat) : State :=
  { s with
    tokens_purchased := store s.tokens_purchased env.sender (amount * 1 ^ 18)
    tokens_purchased_at := store s.tokens_purchased_at env.sender env.timestamp
    total_tokens_purchased := s.total_tokens_purchased + amount * 1 ^ 18
    calls := ExtCall.erc20TransferFrom s.currency env.sender s.owner
      (amount * s.price_per_token) :: s.calls }

theorem purchase_tokens_ok {env : Env} {s : State} {amount : Nat} {s' : State}
    (h : purchase_tokens env s amount = .ok s') :
    s.initialized = true ∧ s.tokens_purchased env.sender = 0 ∧
    s.total_tokens_purchased + amount * 1 ^ 18 ≤ s.total_tokens_available ∧
    env.transferOk = true ∧ s' = purchaseState env s amount := by
  by_cases hinit : s.initialized = false
  · simp [purchase_tokens, validate_is_initialized, hinit] at h
  · replace hinit : s.initialized = true := by
      revert hinit; cases s.initialized <;> simp
    by_cases honce : 0 < s.tokens_purchased env.sender
    · simp [purchase_tokens, validate_is_initialized, hinit, honce] at h
    · replace honce : s.tokens_purchased env.sender = 0 := by omega
      by_cases hcap : s.total_tokens_available < s.total_tokens_purchased + amount
      · simp [purchase_tokens, validate_is_initialized, hinit, honce, hcap] at h
      · by_cases htr : env.transferOk = true
        · simp [purchase_tokens, validate_is_initialized, hinit, honce, hcap, htr] at h
          refine ⟨hinit, honce, by simp only [one_pow, Nat.mul_one]; omega, htr, ?_⟩
          simp only [purchaseState, hinit, one_pow, mul_one]
          exact h.symm
        · simp [purchase_tokens, validate_is_initialized, hinit, honce, hcap, htr] at h

/-- The record `init` writes on success. -/
def initState (env : Env) (s : State) (token currency : Address)
    (price_per_token total_tokens_available total_vesting_length_in_seconds : Nat)
    (nft_claim : Address) : State :=
  { s with
    initialized := true
    owner := env.sender
    token := token
    currency := currency
    price_per_token := price_per_token
    total_tokens_available := total_tokens_available
    total_vesting_length_in_seconds := total_vesting_length_in_seconds
    nft_claim := nft_claim }

theorem init_ok {env : Env} {s : State} {t c p a v n : Nat} {s' : State}
    (h : init env s t c p a v n = .ok s') :
    s.initialized = false ∧ p ≠ 0 ∧ t ≠ 0 ∧ c ≠ 0 ∧ a ≠ 0 ∧
    (v = 0 ∨ (MIN_VESTING_LENGTH ≤ v ∧ v ≤ MAX_VESTING_LENGTH)) ∧ n ≠ 0 ∧
    s' = initState env s t c p a v n := by
  by_cases hi : s.initialized = true
  · simp [init, validate_initialization, hi] at h
  · replace hi : s.initialized = false := by
      revert hi; cases s.initialized <;> simp
    by_cases hpz : p = 0
    · simp [init, validate_initialization, validate_price_per_token, hi, hpz] at h
    · by_cases htz : t = 0
      · simp [init, validate_initialization, validate_price_per_token,
          validate_address, hi, hpz, htz] at h
      · by_cases hcz : c = 0
        · simp [init, validate_initialization, validate_price_per_token,
            validate_address, hi, hpz, htz, hcz] at h
        · by_cases haz : a = 0
          · simp [init, validate_initialization, validate_price_per_token,
              validate_address, validate_total_tokens_for_sale, hi, hpz, htz, hcz, haz] at h
          · by_cases hnz : n = 0
            · by_cases hv0 : v = 0
              · simp [init, validate_initialization, validate_price_per_token,
                  validate_address, validate_total_tokens_for_sale,
                  validate_vesting_length, hi, hpz, htz, hcz, haz, hv0, hnz] at h
              · by_cases hshort : v < 86400
                · simp [init, validate_initialization, validate_price_per_token,
                    validate_address, validate_total_tokens_for_sale,
                    validate_vesting_length, MIN_VESTING_LENGTH,
                    hi, hpz, htz, hcz, haz, hv0, hshort] at h
                · by_cases hlong : 31536000 < v
                  · simp [init, validate_initialization, validate_price_per_token,
                      validate_address, validate_total_tokens_for_sale,
                      validate_vesting_length, MIN_VESTING_LENGTH, MAX_VESTING_LENGTH,
                      hi, hpz, htz, hcz, haz, hv0, hshort, hlong, hnz] at h
                  · simp [init, validate_initialization, validate_price_per_token,
                      validate_address, validate_total_tokens_for_sale,
                      validate_vesting_length, MIN_VESTING_LENGTH, MAX_VESTING_LENGTH,
                      hi, hpz, htz, hcz, haz, hv0, hshort, hlong, hnz] at h
            · by_cases hv0 : v = 0
              · simp [init, validate_initialization, validate_price_per_token,
                  validate_address, validate_total_tokens_for_sale,
                  validate_vesting_length, hi, hpz, htz, hcz, haz, hv0, hnz] at h
                refine ⟨hi, hpz, htz, hcz, haz, Or.inl hv0, hnz, ?_⟩
                simp only [initState, hv0]
                exact h.symm
              · by_cases hshort : v < 86400
                · simp [init, validate_initialization, validate_price_per_token,
                    validate_address, validate_total_tokens_for_sale,
                    validate_vesting_length, MIN_VESTING_LENGTH,
                    hi, hpz, htz, hcz, haz, hv0, hshort] at h
                · by_cases hlong : 31536000 < v
                  · simp [init, validate_initialization, validate_price_per_token,
                      validate_address, validate_total_tokens_for_sale,
                      validate_vesting_length, MIN_VESTING_LENGTH, MAX_VESTING_LENGTH,
                      hi, hpz, htz, hcz, haz, hv0, hshort, hlong, hnz] at h
                  · simp [init, validate_initialization, validate_price_per_token,
                      validate_address, validate_total_tokens_for_sale,
                      validate_vesting_length, MIN_VESTING_LENGTH, MAX_VESTING_LENGTH,
                      hi, hpz, htz, hcz, haz, hv0, hshort, hlong, hnz] at h
                    refine ⟨hi, hpz, htz, hcz, haz,
                      Or.inr ⟨by simp [MIN_VESTING_LENGTH]; omega,
                        by simp [MAX_VESTING_LENGTH]; omega⟩, hnz, ?_⟩
                    simp only [initState]
                    exact h.symm

/-- The record `enable_tokenized_vesting` writes on success. -/
def enableState (env : Env) (s : State) (token_id : Nat) : State :=
  { s with nft_claim_token_id := store s.nft_claim_token_id env.sender token_id }

theorem enable_tokenized_vesting_ok {env : Env} {s : State} {token_id : Nat} {s' : State}
    (h : enable_tokenized_vesting env s token_id = .ok s') :
    s.total_vesting_length_in_seconds ≠ 0 ∧ s.tokens_purchased env.sender ≠ 0 ∧
    s.nft_claim_token_id env.sender = 0 ∧ token_id ≠ 0 ∧
    s.tokens_claimed env.sender ≠ s.tokens_purchased env.sender ∧
    s' = enableState env s token_id := by
  by_cases hv : s.total_vesting_length_in_seconds = 0
  · simp [enable_tokenized_vesting, validate_vesting_enabled, hv] at h
  · by_cases hp : s.tokens_purchased env.sender = 0
    · simp [enable_tokenized_vesting, validate_vesting_enabled, hv, hp] at h
    · by_cases hnft : s.nft_claim_token_id env.sender = 0
      · by_cases htid : token_id = 0
        · simp [enable_tokenized_vesting, validate_vesting_enabled, hv, hp, hnft, htid] at h
        · by_cases hall : s.tokens_claimed env.sender = s.tokens_purchased env.sender
          · simp [enable_tokenized_vesting, validate_vesting_enabled,
              hv, hp, hnft, htid, hall] at h
          · simp [enable_tokenized_vesting, validate_vesting_enabled,
              hv, hp, hnft, htid, hall] at h
            refine ⟨hv, hp, hnft, htid, hall, ?_⟩
            simp only [enableState]
            exact h.symm
      · simp [enable_tokenized_vesting, validate_vesting_enabled, hv, hp, hnft] at h

/-- The baseline the engine measures elapsed time from: the purchase
timestamp until something has been claimed, the last claim timestamp
afterwards. -/
def baselineOf (s : State) (user : Address) : Nat :=
  if s.tokens_claimed user = 0 then s.tokens_purchased_at user
  else s.tokens_claimed_at user

/-- The tranche the engine releases before full unlock:
`(now - baseline) * (((p * 1e12) / v) / 1e12)`. -/
def trancheOf (env : Env) (s : State) (user : Address) : Nat :=
  (env.timestamp - baselineOf s user) *
    rate (s.tokens_purchased user) s.total_vesting_length_in_seconds

/-- The record the claim engine writes in its at-or-past-full-unlock branch. -/
def fullClaimState (s : State) (user recipient : Address) : State :=
  { s with
    tokens_claimed := store s.tokens_claimed user (s.tokens_purchased user)
    tokens_claimed_at := store s.tokens_claimed_at user
      (s.tokens_purchased_at user + s.total_vesting_length_in_seconds)
    calls := ExtCall.erc20Transfer s.token recipient
      (s.tokens_purchased user - s.tokens_claimed user) :: s.calls }

/-- The record the claim engine writes in its before-full-unlock branch. -/
def partialClaimState (env : Env) (s : State) (user recipient : Address) : State :=
  { s with
    tokens_claimed :=
      store s.tokens_claimed user (s.tokens_claimed user + trancheOf env s user)
    tokens_claimed_at := store s.tokens_claimed_at user env.timestamp
    calls := ExtCall.erc20Transfer s.token recipient (trancheOf env s user) :: s.calls }

theorem claim_tokens_from_user_ok {env : Env} {s : State} {user recipient : Address}
    {s' : State} (h : claim_tokens_from_user env s user recipient = .ok s') :
    s.total_vesting_length_in_seconds ≠ 0 ∧ s.tokens_purchased user ≠ 0 ∧
    s.tokens_claimed user ≠ s.tokens_purchased user ∧ env.transferOk = true ∧
    ((s.tokens_purchased_at user + s.total_vesting_length_in_seconds ≤ env.timestamp ∧
      s' = fullClaimState s user recipient) ∨
     (env.timestamp < s.tokens_purchased_at user + s.total_vesting_length_in_seconds ∧
      s' = partialClaimState env s user recipient)) := by
  by_cases hv : s.total_vesting_length_in_seconds = 0
  · simp [claim_tokens_from_user, validate_vesting_enabled, hv] at h
  · by_cases hp : s.tokens_purchased user = 0
    · simp [claim_tokens_from_user, validate_vesting_enabled, hv, hp] at h
    · by_cases hc : s.tokens_claimed user = s.tokens_purchased user
      · simp [claim_tokens_from_user, validate_vesting_enabled, hv, hp, hc] at h
      · by_cases htr : env.transferOk = true
        · by_cases hge :
            s.tokens_purchased_at user + s.total_vesting_length_in_seconds ≤ env.timestamp
          · simp [claim_tokens_from_user, validate_vesting_enabled,
              hv, hp, hc, htr, hge] at h
            refine ⟨hv, hp, hc, htr, Or.inl ⟨hge, ?_⟩⟩
            simp only [fullClaimState]
            exact h.symm
          · simp [claim_tokens_from_user, validate_vesting_enabled,
              hv, hp, hc, htr, hge] at h
            refine ⟨hv, hp, hc, htr, Or.inr ⟨by omega, ?_⟩⟩
            simp only [partialClaimState, trancheOf, baselineOf, rate]
            exact h.symm
        · by_cases hge :
            s.tokens_purchased_at user + s.total_vesting_length_in_seconds ≤ env.timestamp
          · simp [claim_tokens_from_user, validate_vesting_enabled,
              hv, hp, hc, htr, hge] at h
          · simp [claim_tokens_from_user, validate_vesting_enabled,
              hv, hp, hc, htr, hge] at h

/-- The record `claim_unlocked_tokens` writes on success. -/
def claimUnlockedState (env : Env) (s : State) : State :=
  { s with
    tokens_claimed := store s.tokens_claimed env.sender (s.tokens_purchased env.sender)
    tokens_claimed_at := store s.tokens_claimed_at env.sender env.timestamp
    calls := ExtCall.erc20Transfer s.token env.sender
      (s.tokens_purchased env.sender) :: s.calls }

theorem claim_unlocked_tokens_ok {env : Env} {s : State} {s' : State}
    (h : claim_unlocked_tokens env s = .ok s') :
    s.total_vesting_length_in_seconds = 0 ∧ s.tokens_claimed env.sender = 0 ∧
    s.tokens_purchased env.sender ≠ 0 ∧ env.transferOk = true ∧
    s' = claimUnlockedState env s := by
  by_cases hv : s.total_vesting_length_in_seconds = 0
  · by_cases hcl : s.tokens_claimed env.sender = 0
    · by_cases hp : s.tokens_purchased env.sender = 0
      · simp [claim_unlocked_tokens, hv, hcl, hp] at h
      · by_cases htr : env.transferOk = true
        · simp [claim_unlocked_tokens, hv, hcl, hp, htr] at h
          refine ⟨hv, hcl, hp, htr, ?_⟩
          simp only [claimUnlockedState, hv]
          exact h.symm
        · simp [claim_unlocked_tokens, hv, hcl, hp, htr] at h
    · simp [claim_unlocked_tokens, hv, hcl] at h
  · simp [claim_unlocked_tokens, hv] at h

theorem claim_tokens_ok {env : Env} {s : State} {s' : State}
    (h : claim_tokens env s = .ok s') :
    s.nft_claim_token_id env.sender = 0 ∧
    claim_tokens_from_user env s env.sender env.sender = .ok s' := by
  by_cases hnft : s.nft_claim_token_id env.sender = 0
  · refine ⟨hnft, ?_⟩
    simpa [claim_tokens, hnft] using h
  · simp [claim_tokens, hnft] at h

theorem claim_tokens_by_nft_ok {env : Env} {s : State} {user : Address} {s' : State}
    (h : claim_tokens_by_nft env s user = .ok s') :
    resolvedNftOwner env (s.nft_claim_token_id user) = env.sender ∧
    claim_tokens_from_user env s user env.sender = .ok s' := by
  by_cases hown : resolvedNftOwner env (s.nft_claim_token_id user) = env.sender
  · refine ⟨hown, ?_⟩
    simpa [claim_tokens_by_nft, validate_sender_owns_nft, hown] using h
  · simp [claim_tokens_by_nft, validate_sender_owns_nft, hown] at h

theorem update_price_ok {env : Env} {s : State} {new_price : Nat} {s' : State}
    (h : update_price env s new_price = .ok s') :
    env.sender = s.owner ∧ s' = { s with price_per_token := new_price } := by
  by_cases hs : env.sender = s.owner
  · simp [update_price, validate_sender_is_owner, hs] at h
    exact ⟨hs, h.symm⟩
  · simp [update_price, validate_sender_is_owner, hs] at h

/-! ### Preservation of the invariant by every operation -/

theorem inv_purchase_ok {env : Env} {s : State} {clk amount : Nat} {s' : State}
    (hinv : Inv s clk) (hts : clk ≤ env.timestamp)
    (h : purchase_tokens env s amount = .ok s') : Inv s' env.timestamp := by
  obtain ⟨hinit, honce, hcap, -, hs'⟩ := purchase_tokens_ok h
  obtain ⟨htot, hni, hnft, huser⟩ := hinv
  subst hs'
  refine ⟨by simpa [purchaseState] using hcap, ?_, ?_, ?_⟩
  · intro hfalse
    simp [purchaseState, hinit] at hfalse
  · intro u hu
    simp only [purchaseState] at hu ⊢
    rcases hnft u hu with ⟨hv, hp⟩
    refine ⟨hv, ?_⟩
    by_cases he : u = env.sender
    · subst he; exact absurd honce hp
    · simpa [store, he] using hp
  · intro u
    obtain ⟨hpa, hca, hdisj⟩ := huser u
    by_cases he : u = env.sender
    · subst he
      have hc0 : s.tokens_claimed env.sender = 0 :=
        (huser env.sender).claimed_zero honce
      exact ⟨by simp [purchaseState, store],
        by simp only [purchaseState]; omega,
        Or.inl (by simpa [purchaseState] using hc0)⟩
    · refine ⟨by simp only [purchaseState, store_other _ _ _ he]; omega,
        by simp only [purchaseState]; omega, ?_⟩
      simpa [purchaseState, store_other _ _ _ he] using hdisj

theorem inv_claim_engine_ok {env : Env} {s : State} {clk : Nat}
    {user recipient : Address} {s' : State}
    (hinv : Inv s clk) (hts : clk ≤ env.timestamp)
    (h : claim_tokens_from_user env s user recipient = .ok s') :
    Inv s' env.timestamp := by
  obtain ⟨hv, hp, hc, -, hbr⟩ := claim_tokens_from_user_ok h
  obtain ⟨htot, hni, hnft, huser⟩ := hinv
  rcases hbr with ⟨hge, hs'⟩ | ⟨hlt, hs'⟩ <;> subst hs'
  · refine ⟨by simpa [fullClaimState] using htot, ?_, ?_, ?_⟩
    · intro hfalse
      simp only [fullClaimState] at hfalse
      exact absurd (hni hfalse).1 hv
    · intro u hu
      simp only [fullClaimState] at hu ⊢
      exact hnft u hu
    · intro u
      obtain ⟨hpa, hca, hdisj⟩ := huser u
      by_cases he : u = user
      · subst he
        refine ⟨by simp only [fullClaimState]; omega, ?_, ?_⟩
        · simp only [fullClaimState, store_same]; omega
        · exact Or.inr (Or.inl (by simp [fullClaimState, store]))
      · refine ⟨by simp only [fullClaimState]; omega,
          by simp only [fullClaimState, store_other _ _ _ he]; omega, ?_⟩
        simpa [fullClaimState, store_other _ _ _ he] using hdisj
  · refine ⟨by simpa [partialClaimState] using htot, ?_, ?_, ?_⟩
    · intro hfalse
      simp only [partialClaimState] at hfalse
      exact absurd (hni hfalse).1 hv
    · intro u hu
      simp only [partialClaimState] at hu ⊢
      exact hnft u hu
    · intro u
      obtain ⟨hpa, hca, hdisj⟩ := huser u
      by_cases he : u = user
      · subst he
        refine ⟨by simp only [partialClaimState]; omega, ?_, ?_⟩
        · simp only [partialClaimState, store_same]; omega
        · right; right
          refine ⟨hv, ?_, ?_, ?_⟩
          · simp only [partialClaimState, store_same]; omega
          · simp only [partialClaimState, store_same]; omega
          · simp only [partialClaimState, store_same]
            by_cases hc0 : s.tokens_claimed u = 0
            · simp [trancheOf, baselineOf, hc0]
            · rcases hdisj with h0 | hcp | ⟨-, hpc, hcb, heq⟩
              · exact absurd h0 hc0
              · exact absurd hcp hc
              · simp only [trancheOf, baselineOf, if_neg hc0]
                rw [heq, ← Nat.add_mul]
                congr 1
                omega
      · refine ⟨by simp only [partialClaimState]; omega,
          by simp only [partialClaimState, store_other _ _ _ he]; omega, ?_⟩
        simpa [partialClaimState, store_other _ _ _ he] using hdisj

theorem inv_enable_ok {env : Env} {s : State} {clk token_id : Nat} {s' : State}
    (hinv : Inv s clk) (hts : clk ≤ env.timestamp)
    (h : enable_tokenized_vesting env s token_id = .ok s') : Inv s' env.timestamp := by
  obtain ⟨hv, hp, -, -, -, hs'⟩ := enable_tokenized_vesting_ok h
  obtain ⟨htot, hni, hnft, huser⟩ := hinv
  subst hs'
  refine ⟨by simpa [enableState] using htot, ?_, ?_, ?_⟩
  · intro hfalse
    simp only [enableState] at hfalse
    exact absurd (hni hfalse).1 hv
  · intro u hu
    simp only [enableState] at hu ⊢
    by_cases he : u = env.sender
    · subst he; exact ⟨hv, hp⟩
    · rw [store_other _ _ _ he] at hu
      exact hnft u hu
  · intro u
    obtain ⟨hpa, hca, hdisj⟩ := huser u
    exact ⟨by simp only [enableState]; omega, by simp only [enableState]; omega,
      by simpa [enableState] using hdisj⟩

theorem inv_claim_unlocked_ok {env : Env} {s : State} {clk : Nat} {s' : State}
    (hinv : Inv s clk) (hts : clk ≤ env.timestamp)
    (h : claim_unlocked_tokens env s = .ok s') : Inv s' env.timestamp := by
  obtain ⟨hv, hcl, hp, -, hs'⟩ := claim_unlocked_tokens_ok h
  obtain ⟨htot, hni, hnft, huser⟩ := hinv
  subst hs'
  refine ⟨by simpa [claimUnlockedState] using htot, ?_, ?_, ?_⟩
  · intro hfalse
    simp only [claimUnlockedState] at hfalse
    exact absurd (hni hfalse).2.2 (by intro hall; exact hp (hall env.sender))
  · intro u hu
    simp only [claimUnlockedState] at hu ⊢
    exact hnft u hu
  · intro u
    obtain ⟨hpa, hca, hdisj⟩ := huser u
    by_cases he : u = env.sender
    · subst he
      refine ⟨by simp only [claimUnlockedState]; omega, ?_, ?_⟩
      · simp only [claimUnlockedState, store_same]; omega
      · exact Or.inr (Or.inl (by simp [claimUnlockedState, store]))
    · refine ⟨by simp only [claimUnlockedState]; omega,
        by simp only [claimUnlockedState, store_other _ _ _ he]; omega, ?_⟩
      simpa [claimUnlockedState, store_other _ _ _ he] using hdisj

theorem inv_init_ok {env : Env} {s : State} {clk : Nat} {t c p a v n : Nat} {s' : State}
    (hinv : Inv s clk) (hts : clk ≤ env.timestamp)
    (h : init env s t c p a v n = .ok s') : Inv s' env.timestamp := by
  obtain ⟨hi, -, -, -, -, -, -, hs'⟩ := init_ok h
  obtain ⟨htot, hni, hnft, huser⟩ := hinv
  obtain ⟨-, htot0, hpz⟩ := hni hi
  subst hs'
  refine ⟨by simp only [initState]; omega, by simp [initState], ?_, ?_⟩
  · intro u hu
    simp only [initState] at hu ⊢
    rcases hnft u hu with ⟨-, hp⟩
    exact absurd (hpz u) hp
  · intro u
    obtain ⟨hpa, hca, hdisj⟩ := huser u
    refine ⟨by simp only [initState]; omega, by simp only [initState]; omega, ?_⟩
    exact Or.inl (by
      simp only [initState]
      exact (huser u).claimed_zero (hpz u))

theorem inv_update_price_ok {env : Env} {s : State} {clk new_price : Nat} {s' : State}
    (hinv : Inv s clk) (hts : clk ≤ env.timestamp)
    (h : update_price env s new_price = .ok s') : Inv s' env.timestamp := by
  obtain ⟨-, hs'⟩ := update_price_ok h
  obtain ⟨htot, hni, hnft, huser⟩ := hinv
  subst hs'
  refine ⟨htot, fun hf => hni hf, fun u hu => hnft u hu, ?_⟩
  intro u
  obtain ⟨hpa, hca, hdisj⟩ := huser u
  refine ⟨?_, ?_, hdisj⟩
  · show s.tokens_purchased_at u ≤ env.timestamp
    omega
  · show s.tokens_claimed_at u ≤ env.timestamp
    omega

/-- Every public call preserves the invariant (errors revert, successes
are covered by the per-operation lemmas). -/
theorem inv_run (op : Op) (env : Env) {s : State} {clk : Nat}
    (hinv : Inv s clk) (hts : clk ≤ env.timestamp) :
    Inv (run op env s) env.timestamp := by
  cases hexec : exec op env s with
  | error e => simp only [run, hexec]; exact inv_mono hinv hts
  | ok s' =>
    simp only [run, hexec]
    cases op with
    | init t c p a v n => exact inv_init_ok hinv hts hexec
    | purchase amount => exact inv_purchase_ok hinv hts hexec
    | enableTokenizedVesting token_id => exact inv_enable_ok hinv hts hexec
    | claimTokens =>
      exact inv_claim_engine_ok hinv hts (claim_tokens_ok hexec).2
    | claimTokensByNft user =>
      exact inv_claim_engine_ok hinv hts (claim_tokens_by_nft_ok hexec).2
    | claimUnlockedTokens => exact inv_claim_unlocked_ok hinv hts hexec
    | updatePrice new_price => exact inv_update_price_ok hinv hts hexec

/-- Every reachable state satisfies the invariant. -/
theorem inv_reachable {s : State} {clk : Nat} (h : Reachable s clk) : Inv s clk := by
  induction h with
  | base => exact inv_initial
  | step op env hr hle ih => exact inv_run op env ih hle

/-! ### Compute lemmas for the engine branches -/

theorem claim_engine_before_eq {env : Env} {s : State} {user recipient : Address}
    (hv : s.total_vesting_length_in_seconds ≠ 0)
    (hp : s.tokens_purchased user ≠ 0)
    (hc : s.tokens_claimed user ≠ s.tokens_purchased user)
    (hlt : env.timestamp < s.tokens_purchased_at user + s.total_vesting_length_in_seconds)
    (htr : env.transferOk = true) :
    claim_tokens_from_user env s user recipient =
      .ok (partialClaimState env s user recipient) := by
  have hge : ¬ (s.tokens_purchased_at user + s.total_vesting_length_in_seconds ≤
      env.timestamp) := by omega
  simp [claim_tokens_from_user, validate_vesting_enabled, hv, hp, hc, hge, htr,
    partialClaimState, trancheOf, baselineOf, rate]

theorem claim_engine_full_eq {env : Env} {s : State} {user recipient : Address}
    (hv : s.total_vesting_length_in_seconds ≠ 0)
    (hp : s.tokens_purchased user ≠ 0)
    (hc : s.tokens_claimed user ≠ s.tokens_purchased user)
    (hge : s.tokens_purchased_at user + s.total_vesting_length_in_seconds ≤ env.timestamp)
    (htr : env.transferOk = true) :
    claim_tokens_from_user env s user recipient =
      .ok (fullClaimState s user recipient) := by
  simp [claim_tokens_from_user, validate_vesting_enabled, hv, hp, hc, hge, htr,
    fullClaimState]

/-! ### Concrete executions shared by the witnesses below -/

/-- The deployment call of the concrete executions: account 9 at time 0. -/
def envAdmin : Env := ⟨9, 0, true, fun _ => none⟩

/-- A purchase call by account 5 at time 0. -/
def envBuyer : Env := ⟨5, 0, true, fun _ => none⟩

/-- Initialized sale without vesting plus one purchase of 7 units by
account 5. -/
def sNoVesting : State :=
  run (Op.purchase 7) envBuyer (run (Op.init 2 3 10 1000 0 4) envAdmin initialState)

/-- Initialized sale with a 100000-second vesting schedule plus a
purchase of 50 units by account 5 at time 0. -/
def sVesting : State :=
  run (Op.purchase 50) envBuyer (run (Op.init 2 3 10 1000 100000 4) envAdmin initialState)

/-- `sVesting` after account 5 tokenized its claim rights as NFT 77. -/
def sDelegated : State :=
  run (Op.enableTokenizedVesting 77) envBuyer sVesting

theorem reach_sNoVesting : Reachable sNoVesting 0 :=
  Reachable.step _ _ (Reachable.step _ _ Reachable.base (by decide)) (by decide)

theorem reach_sVesting : Reachable sVesting 0 :=
  Reachable.step _ _ (Reachable.step _ _ Reachable.base (by decide)) (by decide)

theorem reach_sDelegated : Reachable sDelegated 0 :=
  Reachable.step _ _ reach_sVesting (by decide)

/-! ### The claims -/

/-- Claim C1 (code bug): the spec scenario `unitPrice=10`,
`totalUnitsOffered=1000`, `vestingSeconds=100000`, purchase of 50 by
account 5 at `t=0` (recorded `unitsPurchased=50`, cost 500 pulled), then
a claim at `t=50000`.  The spec expects a release of
`floor(50*50000/100000) = 25`; the code computes the per-second rate
`((50 * 1e12) / 100000) / 1e12 = 0` — the scale factor is divided back
out before multiplying by the elapsed time, so the fixed-point scaling is
a no-op and the claim releases 0 and records `unitsClaimed = 0`. -/
theorem midway_claim_releases_zero_not_25 :
    sVesting.tokens_purchased 5 = 50 ∧
    sVesting.calls = [ExtCall.erc20TransferFrom 3 5 9 500] ∧
    (run Op.claimTokens ⟨5, 50000, true, fun _ => none⟩ sVesting).tokens_claimed 5 = 0 ∧
    (run Op.claimTokens ⟨5, 50000, true, fun _ => none⟩ sVesting).calls.head? =
      some (ExtCall.erc20Transfer 2 5 0) ∧
    (run Op.claimTokens ⟨5, 50000, true, fun _ => none⟩ sVesting).tokens_claimed 5 ≠ 25 := by
  refine ⟨by decide, by decide, by decide, by decide, by decide⟩

/-- Claim C2: in every reachable state, every account's claimed units are
bounded by its purchased units, and the global purchased total is bounded
by the total units offered. -/
theorem claimed_and_total_bounded {s : State} {clk : Nat} (h : Reachable s clk)
    (u : Address) :
    s.tokens_claimed u ≤ s.tokens_purchased u ∧
    s.total_tokens_purchased ≤ s.total_tokens_available := by
  obtain ⟨htot, -, -, huser⟩ := inv_reachable h
  exact ⟨(huser u).claimed_le, htot⟩

/-- Witness for C2 at the concrete two-call execution `sVesting` and
account 5. -/
theorem claimed_and_total_bounded_witness :
    sVesting.tokens_claimed 5 ≤ sVesting.tokens_purchased 5 ∧
    sVesting.total_tokens_purchased ≤ sVesting.total_tokens_available :=
  claimed_and_total_bounded reach_sVesting 5

/-- Claim C3: with vesting enabled, a purchase on record and something
left to claim, a claim at or past `purchaseTimestamp + vestingSeconds`
succeeds, releases exactly `unitsPurchased - unitsClaimed` to the
recipient, sets `unitsClaimed = unitsPurchased` and
`lastClaimTimestamp = purchaseTimestamp + vestingSeconds` (the schedule
boundary, not `now`), and every later claim through the engine fails with
`AllTokensClaimed`, leaving the record unchanged (the error reverts). -/
theorem full_unlock_claim_releases_remainder {env : Env} {s : State}
    {user recipient : Address}
    (hv : s.total_vesting_length_in_seconds ≠ 0)
    (hp : s.tokens_purchased user ≠ 0)
    (hc : s.tokens_claimed user < s.tokens_purchased user)
    (hge : s.tokens_purchased_at user + s.total_vesting_length_in_seconds ≤ env.timestamp)
    (htr : env.transferOk = true) :
    claim_tokens_from_user env s user recipient = .ok (fullClaimState s user recipient) ∧
    (fullClaimState s user recipient).tokens_claimed user = s.tokens_purchased user ∧
    (fullClaimState s user recipient).tokens_claimed_at user =
      s.tokens_purchased_at user + s.total_vesting_length_in_seconds ∧
    (fullClaimState s user recipient).calls =
      ExtCall.erc20Transfer s.token recipient
        (s.tokens_purchased user - s.tokens_claimed user) :: s.calls ∧
    ∀ env2 recipient2,
      claim_tokens_from_user env2 (fullClaimState s user recipient) user recipient2 =
        .error .AllTokensClaimed ∧
      runEngine env2 (fullClaimState s user recipient) user recipient2 =
        fullClaimState s user recipient := by
  have hcne : s.tokens_claimed user ≠ s.tokens_purchased user := Nat.ne_of_lt hc
  refine ⟨claim_engine_full_eq hv hp hcne hge htr,
    by simp [fullClaimState, store_same],
    by simp [fullClaimState, store_same],
    by simp [fullClaimState], ?_⟩
  intro env2 recipient2
  have hdone : claim_tokens_from_user env2 (fullClaimState s user recipient)
      user recipient2 = .error .AllTokensClaimed := by
    simp [claim_tokens_from_user, validate_vesting_enabled, fullClaimState,
      store_same, hv, hp]
  exact ⟨hdone, by simp [runEngine, hdone]⟩

/-- Witness for C3: account 5 of `sVesting` claims at `t = 100000`; the
subsequent claim is instantiated at time 150000. -/
theorem full_unlock_claim_releases_remainder_witness :
    claim_tokens_from_user ⟨5, 100000, true, fun _ => none⟩ sVesting 5 5 =
      .ok (fullClaimState sVesting 5 5) ∧
    (fullClaimState sVesting 5 5).tokens_claimed 5 = sVesting.tokens_purchased 5 ∧
    (fullClaimState sVesting 5 5).tokens_claimed_at 5 =
      sVesting.tokens_purchased_at 5 + sVesting.total_vesting_length_in_seconds ∧
    (fullClaimState sVesting 5 5).calls =
      ExtCall.erc20Transfer sVesting.token 5
        (sVesting.tokens_purchased 5 - sVesting.tokens_claimed 5) :: sVesting.calls ∧
    claim_tokens_from_user ⟨5, 150000, true, fun _ => none⟩
      (fullClaimState sVesting 5 5) 5 5 = .error .AllTokensClaimed ∧
    runEngine ⟨5, 150000, true, fun _ => none⟩ (fullClaimState sVesting 5 5) 5 5 =
      fullClaimState sVesting 5 5 := by
  have H := @full_unlock_claim_releases_remainder ⟨5, 100000, true, fun _ => none⟩
    sVesting 5 5 (by decide) (by decide) (by decide) (by decide) rfl
  obtain ⟨h1, h2, h3, h4, h5⟩ := H
  obtain ⟨h6, h7⟩ := h5 ⟨5, 150000, true, fun _ => none⟩ 5
  exact ⟨h1, h2, h3, h4, h6, h7⟩

theorem tranche_add (t1 t2 b r : Nat) (hb : b ≤ t1) (h12 : t1 ≤ t2) :
    (t1 - b) * r + (t2 - t1) * r = (t2 - b) * r := by
  rw [← Nat.add_mul]
  congr 1
  omega

/-- Claim C4: for a record still vesting, two successful claims at
`t1 < t2 < purchaseTimestamp + vestingSeconds` (with time monotonic
relative to the record's stored timestamps) leave exactly the same
cumulative `unitsClaimed` as a single claim at `t2` — equal on the nose,
which is within the claimed one-unit truncation bound. -/
theorem split_claim_equals_single_claim {env1 env2 : Env} {s : State}
    {user r1 r2 : Address}
    (hv : s.total_vesting_length_in_seconds ≠ 0)
    (hp : s.tokens_purchased user ≠ 0)
    (hc : s.tokens_claimed user ≠ s.tokens_purchased user)
    (hpa : s.tokens_purchased_at user ≤ env1.timestamp)
    (hca : s.tokens_claimed_at user ≤ env1.timestamp)
    (h12 : env1.timestamp < env2.timestamp)
    (hlt : env2.timestamp < s.tokens_purchased_at user + s.total_vesting_length_in_seconds)
    (htr1 : env1.transferOk = true) (htr2 : env2.transferOk = true)
    (hc2 : (partialClaimState env1 s user r1).tokens_claimed user ≠
      (partialClaimState env1 s user r1).tokens_purchased user) :
    claim_tokens_from_user env1 s user r1 = .ok (partialClaimState env1 s user r1) ∧
    (runEngine env2 (runEngine env1 s user r1) user r2).tokens_claimed user =
      (runEngine env2 s user r2).tokens_claimed user := by
  have h1 : claim_tokens_from_user env1 s user r1 =
      .ok (partialClaimState env1 s user r1) :=
    claim_engine_before_eq hv hp hc (by omega) htr1
  have hrun1 : runEngine env1 s user r1 = partialClaimState env1 s user r1 := by
    simp [runEngine, h1]
  have h2 : claim_tokens_from_user env2 (partialClaimState env1 s user r1) user r2 =
      .ok (partialClaimState env2 (partialClaimState env1 s user r1) user r2) :=
    claim_engine_before_eq hv hp hc2 hlt htr2
  have hrun2 : runEngine env2 (partialClaimState env1 s user r1) user r2 =
      partialClaimState env2 (partialClaimState env1 s user r1) user r2 := by
    simp [runEngine, h2]
  have h3 : claim_tokens_from_user env2 s user r2 =
      .ok (partialClaimState env2 s user r2) :=
    claim_engine_before_eq hv hp hc (by omega) htr2
  have hrun3 : runEngine env2 s user r2 = partialClaimState env2 s user r2 := by
    simp [runEngine, h3]
  refine ⟨h1, ?_⟩
  rw [hrun1, hrun2, hrun3]
  simp only [partialClaimState, store_same, trancheOf, baselineOf]
  split_ifs <;>
    first
      | omega
      | (rw [Nat.add_assoc, tranche_add _ _ _ _ (by omega) (by omega)])
      | (rw [tranche_add _ _ _ _ (by omega) (by omega)])

/-- A vesting record with a non-trivial per-second unlock rate (200000
units over 100000 seconds, rate 2/second), used by the C4 witness. -/
def sFast : State :=
  { initialState with
      initialized := true
      owner := 9
      token := 2
      currency := 3
      price_per_token := 10
      total_tokens_available := 200000
      total_vesting_length_in_seconds := 100000
      nft_claim := 4
      total_tokens_purchased := 200000
      tokens_purchased := store (fun _ => 0) 5 200000
      tokens_purchased_at := store (fun _ => 0) 5 0 }

/-- Witness for C4: on `sFast`, claims at 10000 and 30000 accumulate
60000 claimed units, as does a single claim at 30000. -/
theorem split_claim_equals_single_claim_witness :
    claim_tokens_from_user ⟨7, 10000, true, fun _ => none⟩ sFast 5 7 =
      .ok (partialClaimState ⟨7, 10000, true, fun _ => none⟩ sFast 5 7) ∧
    (runEngine ⟨8, 30000, true, fun _ => none⟩
        (runEngine ⟨7, 10000, true, fun _ => none⟩ sFast 5 7) 5 8).tokens_claimed 5 =
      (runEngine ⟨8, 30000, true, fun _ => none⟩ sFast 5 8).tokens_claimed 5 :=
  split_claim_equals_single_claim (by decide) (by decide) (by decide) (by decide)
    (by decide) (by decide) (by decide) rfl rfl (by decide)

/-- Claim C5 counterexample: invoking a claim on the uninitialized
initial state does not fail on an initialization precondition — there is
none in the claim path — but with `VestingNotEnabled` (the default
vesting length is zero). -/
theorem claim_on_uninitialized_not_initialization_guarded :
    claim_tokens ⟨5, 0, true, fun _ => none⟩ initialState = .error .VestingNotEnabled ∧
    claim_tokens ⟨5, 0, true, fun _ => none⟩ initialState ≠ .error .NotInitialized := by
  constructor
  · rfl
  · intro h
    rw [show claim_tokens ⟨5, 0, true, fun _ => none⟩ initialState =
      .error .VestingNotEnabled from rfl] at h
    simp at h

/-- Claim C5 (amended): the claim engine checks, in order, vesting
enabled (else `VestingNotEnabled`), a purchase on record (else
`NoTokensVested`), and something left to claim (else `AllTokensClaimed`);
it has no initialization precondition — on an uninitialized instance the
vesting length is still zero, so a claim fails with `VestingNotEnabled`
rather than with an initialization error. -/
theorem claim_engine_precondition_order (env : Env) (s : State)
    (user recipient : Address) :
    (s.total_vesting_length_in_seconds = 0 →
      claim_tokens_from_user env s user recipient = .error .VestingNotEnabled) ∧
    (s.total_vesting_length_in_seconds ≠ 0 → s.tokens_purchased user = 0 →
      claim_tokens_from_user env s user recipient = .error .NoTokensVested) ∧
    (s.total_vesting_length_in_seconds ≠ 0 → s.tokens_purchased user ≠ 0 →
      s.tokens_claimed user = s.tokens_purchased user →
      claim_tokens_from_user env s user recipient = .error .AllTokensClaimed) := by
  refine ⟨fun hv => by simp [claim_tokens_from_user, validate_vesting_enabled, hv],
    fun hv hp => by simp [claim_tokens_from_user, validate_vesting_enabled, hv, hp],
    fun hv hp hc => by
      simp [claim_tokens_from_user, validate_vesting_enabled, hv, hp, hc]⟩

/-- Witness for C5 (amended), instantiating the three precedence cases at
concrete states. -/
theorem claim_engine_precondition_order_witness :
    claim_tokens_from_user ⟨5, 0, true, fun _ => none⟩ initialState 5 5 =
      .error .VestingNotEnabled ∧
    claim_tokens_from_user ⟨8, 0, true, fun _ => none⟩ sVesting 8 8 =
      .error .NoTokensVested ∧
    claim_tokens_from_user ⟨5, 99999, true, fun _ => none⟩
      (fullClaimState sVesting 5 5) 5 5 = .error .AllTokensClaimed :=
  ⟨(claim_engine_precondition_order _ initialState 5 5).1 (by decide),
   (claim_engine_precondition_order _ sVesting 8 8).2.1 (by decide) (by decide),
   (claim_engine_precondition_order _ (fullClaimState sVesting 5 5) 5 5).2.2
     (by decide) (by decide) (by decide)⟩

/-- Claim C6: when the external transfer reports failure, the operation
that reached it fails with `TransferFailed`, and under the host's
revert-on-error semantics (`run`/`runEngine`) none of the mutations the
operation performed earlier survive: the observed state is the pre-state. -/
theorem transfer_failure_reverts (env : Env) (s : State) :
    (∀ amount, s.initialized = true → s.tokens_purchased env.sender = 0 →
      s.total_tokens_purchased + amount * 1 ^ 18 ≤ s.total_tokens_available →
      env.transferOk = false →
      purchase_tokens env s amount = .error .TransferFailed ∧
      run (Op.purchase amount) env s = s) ∧
    (∀ user recipient, s.total_vesting_length_in_seconds ≠ 0 →
      s.tokens_purchased user ≠ 0 →
      s.tokens_claimed user ≠ s.tokens_purchased user →
      env.transferOk = false →
      claim_tokens_from_user env s user recipient = .error .TransferFailed ∧
      runEngine env s user recipient = s) ∧
    (s.total_vesting_length_in_seconds = 0 → s.tokens_claimed env.sender = 0 →
      s.tokens_purchased env.sender ≠ 0 → env.transferOk = false →
      claim_unlocked_tokens env s = .error .TransferFailed ∧
      run Op.claimUnlockedTokens env s = s) := by
  refine ⟨?_, ?_, ?_⟩
  · intro amount hinit honce hcap htr
    have hcap' : ¬ s.total_tokens_available < s.total_tokens_purchased + amount := by
      simp only [one_pow, mul_one] at hcap
      omega
    have honce' : ¬ 0 < s.tokens_purchased env.sender := by omega
    have he : purchase_tokens env s amount = .error .TransferFailed := by
      simp [purchase_tokens, validate_is_initialized, hinit, honce', hcap', htr]
    exact ⟨he, by simp [run, exec, he]⟩
  · intro user recipient hv hp hc htr
    have he : claim_tokens_from_user env s user recipient = .error .TransferFailed := by
      by_cases hge : s.tokens_purchased_at user + s.total_vesting_length_in_seconds ≤
          env.timestamp
      · simp [claim_tokens_from_user, validate_vesting_enabled, hv, hp, hc, hge, htr]
      · simp [claim_tokens_from_user, validate_vesting_enabled, hv, hp, hc, hge, htr]
    exact ⟨he, by simp [runEngine, he]⟩
  · intro hv hcl hp htr
    have he : claim_unlocked_tokens env s = .error .TransferFailed := by
      simp [claim_unlocked_tokens, hv, hcl, hp, htr]
    exact ⟨he, by simp [run, exec, he]⟩

/-- Witness for C6: a failing purchase by account 6 on `sVesting`, a
failing vesting claim by account 5 on `sVesting`, and a failing
no-vesting claim by account 5 on `sNoVesting`, each reverting. -/
theorem transfer_failure_reverts_witness :
    purchase_tokens ⟨6, 0, false, fun _ => none⟩ sVesting 10 =
      .error .TransferFailed ∧
    run (Op.purchase 10) ⟨6, 0, false, fun _ => none⟩ sVesting = sVesting ∧
    claim_tokens_from_user ⟨5, 10, false, fun _ => none⟩ sVesting 5 5 =
      .error .TransferFailed ∧
    runEngine ⟨5, 10, false, fun _ => none⟩ sVesting 5 5 = sVesting ∧
    claim_unlocked_tokens ⟨5, 3, false, fun _ => none⟩ sNoVesting =
      .error .TransferFailed ∧
    run Op.claimUnlockedTokens ⟨5, 3, false, fun _ => none⟩ sNoVesting = sNoVesting := by
  have h1 := (transfer_failure_reverts ⟨6, 0, false, fun _ => none⟩ sVesting).1
    10 (by decide) (by decide) (by decide) rfl
  have h2 := (transfer_failure_reverts ⟨5, 10, false, fun _ => none⟩ sVesting).2.1
    5 5 (by decide) (by decide) (by decide) rfl
  have h3 := (transfer_failure_reverts ⟨5, 3, false, fun _ => none⟩ sNoVesting).2.2
    (by decide) (by decide) (by decide) rfl
  exact ⟨h1.1, h1.2, h2.1, h2.2, h3.1, h3.2⟩

/-- No operation — successful or not — changes an already non-zero
delegated claim token id (the only write is guarded by the id being 0). -/
theorem nft_id_preserved (op : Op) (env : Env) (s : State) (u : Address)
    (hu : s.nft_claim_token_id u ≠ 0) :
    (run op env s).nft_claim_token_id u = s.nft_claim_token_id u := by
  cases hexec : exec op env s with
  | error e => simp only [run, hexec]
  | ok s' =>
    simp only [run, hexec]
    cases op with
    | init t c p a v n =>
      obtain ⟨-, -, -, -, -, -, -, hs'⟩ := init_ok hexec
      subst hs'
      rfl
    | purchase amount =>
      obtain ⟨-, -, -, -, hs'⟩ := purchase_tokens_ok hexec
      subst hs'
      rfl
    | enableTokenizedVesting token_id =>
      obtain ⟨-, -, hz, -, -, hs'⟩ := enable_tokenized_vesting_ok hexec
      subst hs'
      have hne : u ≠ env.sender := by
        intro he
        rw [he] at hu
        exact hu hz
      simp [enableState, store_other _ _ _ hne]
    | claimTokens =>
      obtain ⟨-, he⟩ := claim_tokens_ok hexec
      obtain ⟨-, -, -, -, hbr⟩ := claim_tokens_from_user_ok he
      rcases hbr with ⟨-, hs'⟩ | ⟨-, hs'⟩ <;> subst hs' <;> rfl
    | claimTokensByNft user =>
      obtain ⟨-, he⟩ := claim_tokens_by_nft_ok hexec
      obtain ⟨-, -, -, -, hbr⟩ := claim_tokens_from_user_ok he
      rcases hbr with ⟨-, hs'⟩ | ⟨-, hs'⟩ <;> subst hs' <;> rfl
    | claimUnlockedTokens =>
      obtain ⟨-, -, -, -, hs'⟩ := claim_unlocked_tokens_ok hexec
      subst hs'
      rfl
    | updatePrice new_price =>
      obtain ⟨-, hs'⟩ := update_price_ok hexec
      subst hs'
      rfl

/-- Claim C7: delegation is one-time and irreversible.  In every
reachable state, for an account with a non-zero delegated claim token id:
a second `enable_tokenized_vesting` fails with `AlreadyTokenized`; no
operation ever changes that id again; a direct `claim_tokens` by that
account fails with `AlreadyTokenized`; and `claim_tokens_by_nft` fails
with `OnlyOwner` unless the registry-resolved owner of the designated
token is the caller, in which case it proceeds into the claim engine. -/
theorem delegation_one_time_irreversible {s : State} {clk : Nat} (h : Reachable s clk) :
    (∀ env token_id, s.nft_claim_token_id env.sender ≠ 0 →
      enable_tokenized_vesting env s token_id = .error .AlreadyTokenized) ∧
    (∀ op env u, s.nft_claim_token_id u ≠ 0 →
      (run op env s).nft_claim_token_id u = s.nft_claim_token_id u) ∧
    (∀ env, s.nft_claim_token_id env.sender ≠ 0 →
      claim_tokens env s = .error .AlreadyTokenized) ∧
    (∀ env u, s.nft_claim_token_id u ≠ 0 →
      (resolvedNftOwner env (s.nft_claim_token_id u) ≠ env.sender →
        claim_tokens_by_nft env s u = .error .OnlyOwner) ∧
      (resolvedNftOwner env (s.nft_claim_token_id u) = env.sender →
        claim_tokens_by_nft env s u = claim_tokens_from_user env s u env.sender)) := by
  obtain ⟨-, -, hnft, -⟩ := inv_reachable h
  refine ⟨?_, ?_, ?_, ?_⟩
  · intro env token_id hu
    obtain ⟨hv, hp⟩ := hnft env.sender hu
    simp [enable_tokenized_vesting, validate_vesting_enabled, hv, hp, hu]
  · intro op env u hu
    exact nft_id_preserved op env s u hu
  · intro env hu
    simp [claim_tokens, hu]
  · intro env u hu
    constructor
    · intro hmm
      simp [claim_tokens_by_nft, validate_sender_owns_nft, hmm]
    · intro hok
      simp [claim_tokens_by_nft, validate_sender_owns_nft, hok]

/-- Witness for C7 on the concrete delegated execution `sDelegated`
(account 5 delegated to NFT 77). -/
theorem delegation_one_time_irreversible_witness :
    enable_tokenized_vesting ⟨5, 10, true, fun _ => none⟩ sDelegated 88 =
      .error .AlreadyTokenized ∧
    (run Op.claimTokens ⟨5, 10, true, fun _ => none⟩ sDelegated).nft_claim_token_id 5 =
      sDelegated.nft_claim_token_id 5 ∧
    claim_tokens ⟨5, 10, true, fun _ => none⟩ sDelegated = .error .AlreadyTokenized ∧
    claim_tokens_by_nft ⟨9, 10, true, fun _ => none⟩ sDelegated 5 = .error .OnlyOwner ∧
    claim_tokens_by_nft ⟨8, 10, true, fun i => if i = 77 then some 8 else none⟩
        sDelegated 5 =
      claim_tokens_from_user ⟨8, 10, true, fun i => if i = 77 then some 8 else none⟩
        sDelegated 5 8 := by
  have H := delegation_one_time_irreversible reach_sDelegated
  exact ⟨H.1 ⟨5, 10, true, fun _ => none⟩ 88 (by decide),
    H.2.1 Op.claimTokens ⟨5, 10, true, fun _ => none⟩ 5 (by decide),
    H.2.2.1 ⟨5, 10, true, fun _ => none⟩ (by decide),
    (H.2.2.2 ⟨9, 10, true, fun _ => none⟩ 5 (by decide)).1 (by decide),
    (H.2.2.2 ⟨8, 10, true, fun i => if i = 77 then some 8 else none⟩ 5
      (by decide)).2 (by decide)⟩

/-- The configuration fields other than the unit price. -/
def configOf (s : State) : Bool × Address × Address × Address × Nat × Nat × Address :=
  (s.initialized, s.owner, s.token, s.currency, s.total_tokens_available,
   s.total_vesting_length_in_seconds, s.nft_claim)

/-- Claim C8 (`update_price` and the `owner()` view are modelled from the
spec, from the repository variant absent from `src/`): on an initialized
instance no public operation changes the configuration other than the
unit price; only `update_price` changes the price, succeeds exactly for
the administrative account and fails with `OnlyOwner` otherwise; and the
owner view reads the administrative account. -/
theorem config_immutable_price_admin_only {s : State} (hinit : s.initialized = true) :
    (∀ op env, configOf (run op env s) = configOf s) ∧
    (∀ op env, (∀ np, op ≠ Op.updatePrice np) →
      (run op env s).price_per_token = s.price_per_token) ∧
    (∀ env np, env.sender ≠ s.owner → update_price env s np = .error .OnlyOwner) ∧
    (∀ env np, env.sender = s.owner →
      update_price env s np = .ok { s with price_per_token := np }) ∧
    owner_view s = s.owner := by
  refine ⟨?_, ?_, ?_, ?_, rfl⟩
  · intro op env
    cases hexec : exec op env s with
    | error e => simp only [run, hexec]
    | ok s' =>
      simp only [run, hexec]
      cases op with
      | init t c p a v n =>
        obtain ⟨hi, -⟩ := init_ok hexec
        simp [hinit] at hi
      | purchase amount =>
        obtain ⟨-, -, -, -, hs'⟩ := purchase_tokens_ok hexec
        subst hs'
        rfl
      | enableTokenizedVesting token_id =>
        obtain ⟨-, -, -, -, -, hs'⟩ := enable_tokenized_vesting_ok hexec
        subst hs'
        rfl
      | claimTokens =>
        obtain ⟨-, he⟩ := claim_tokens_ok hexec
        obtain ⟨-, -, -, -, hbr⟩ := claim_tokens_from_user_ok he
        rcases hbr with ⟨-, hs'⟩ | ⟨-, hs'⟩ <;> subst hs' <;> rfl
      | claimTokensByNft user =>
        obtain ⟨-, he⟩ := claim_tokens_by_nft_ok hexec
        obtain ⟨-, -, -, -, hbr⟩ := claim_tokens_from_user_ok he
        rcases hbr with ⟨-, hs'⟩ | ⟨-, hs'⟩ <;> subst hs' <;> rfl
      | claimUnlockedTokens =>
        obtain ⟨-, -, -, -, hs'⟩ := claim_unlocked_tokens_ok hexec
        subst hs'
        rfl
      | updatePrice new_price =>
        obtain ⟨-, hs'⟩ := update_price_ok hexec
        subst hs'
        rfl
  · intro op env hne
    cases hexec : exec op env s with
    | error e => simp only [run, hexec]
    | ok s' =>
      simp only [run, hexec]
      cases op with
      | init t c p a v n =>
        obtain ⟨hi, -⟩ := init_ok hexec
        simp [hinit] at hi
      | purchase amount =>
        obtain ⟨-, -, -, -, hs'⟩ := purchase_tokens_ok hexec
        subst hs'
        rfl
      | enableTokenizedVesting token_id =>
        obtain ⟨-, -, -, -, -, hs'⟩ := enable_tokenized_vesting_ok hexec
        subst hs'
        rfl
      | claimTokens =>
        obtain ⟨-, he⟩ := claim_tokens_ok hexec
        obtain ⟨-, -, -, -, hbr⟩ := claim_tokens_from_user_ok he
        rcases hbr with ⟨-, hs'⟩ | ⟨-, hs'⟩ <;> subst hs' <;> rfl
      | claimTokensByNft user =>
        obtain ⟨-, he⟩ := claim_tokens_by_nft_ok hexec
        obtain ⟨-, -, -, -, hbr⟩ := claim_tokens_from_user_ok he
        rcases hbr with ⟨-, hs'⟩ | ⟨-, hs'⟩ <;> subst hs' <;> rfl
      | claimUnlockedTokens =>
        obtain ⟨-, -, -, -, hs'⟩ := claim_unlocked_tokens_ok hexec
        subst hs'
        rfl
      | updatePrice new_price =>
        exact absurd rfl (hne new_price)
  · intro env np hne
    simp [update_price, validate_sender_is_owner, hne]
  · intro env np hok
    simp [update_price, validate_sender_is_owner, hok]

/-- Witness for C8 on `sVesting` (owner is account 9). -/
theorem config_immutable_price_admin_only_witness :
    configOf (run (Op.updatePrice 99) ⟨9, 1, true, fun _ => none⟩ sVesting) =
      configOf sVesting ∧
    (run Op.claimTokens ⟨5, 50000, true, fun _ => none⟩ sVesting).price_per_token =
      sVesting.price_per_token ∧
    update_price ⟨5, 1, true, fun _ => none⟩ sVesting 99 = .error .OnlyOwner ∧
    update_price ⟨9, 1, true, fun _ => none⟩ sVesting 99 =
      .ok { sVesting with price_per_token := 99 } ∧
    owner_view sVesting = sVesting.owner := by
  have H := @config_immutable_price_admin_only sVesting (by decide)
  exact ⟨H.1 (Op.updatePrice 99) ⟨9, 1, true, fun _ => none⟩,
    H.2.1 Op.claimTokens ⟨5, 50000, true, fun _ => none⟩ (fun np h => Op.noConfusion h),
    H.2.2.1 ⟨5, 1, true, fun _ => none⟩ 99 (by decide),
    H.2.2.2.1 ⟨9, 1, true, fun _ => none⟩ 99 (by decide),
    H.2.2.2.2⟩

/-- No operation — successful or not — changes a non-zero purchased
amount (the only write is guarded by the amount being 0). -/
theorem purchased_preserved (op : Op) (env : Env) (s : State) (u : Address)
    (hp : s.tokens_purchased u ≠ 0) :
    (run op env s).tokens_purchased u = s.tokens_purchased u := by
  cases hexec : exec op env s with
  | error e => simp only [run, hexec]
  | ok s' =>
    simp only [run, hexec]
    cases op with
    | init t c p a v n =>
      obtain ⟨-, -, -, -, -, -, -, hs'⟩ := init_ok hexec
      subst hs'
      rfl
    | purchase amount =>
      obtain ⟨-, honce, -, -, hs'⟩ := purchase_tokens_ok hexec
      subst hs'
      have hne : u ≠ env.sender := by
        intro he
        rw [he] at hp
        exact hp honce
      simp [purchaseState, store_other _ _ _ hne]
    | enableTokenizedVesting token_id =>
      obtain ⟨-, -, -, -, -, hs'⟩ := enable_tokenized_vesting_ok hexec
      subst hs'
      rfl
    | claimTokens =>
      obtain ⟨-, he⟩ := claim_tokens_ok hexec
      obtain ⟨-, -, -, -, hbr⟩ := claim_tokens_from_user_ok he
      rcases hbr with ⟨-, hs'⟩ | ⟨-, hs'⟩ <;> subst hs' <;> rfl
    | claimTokensByNft user =>
      obtain ⟨-, he⟩ := claim_tokens_by_nft_ok hexec
      obtain ⟨-, -, -, -, hbr⟩ := claim_tokens_from_user_ok he
      rcases hbr with ⟨-, hs'⟩ | ⟨-, hs'⟩ <;> subst hs' <;> rfl
    | claimUnlockedTokens =>
      obtain ⟨-, -, -, -, hs'⟩ := claim_unlocked_tokens_ok hexec
      subst hs'
      rfl
    | updatePrice new_price =>
      obtain ⟨-, hs'⟩ := update_price_ok hexec
      subst hs'
      rfl

/-- Claim C9: in every reachable state, an account whose purchased amount
is non-zero has every further purchase call rejected with
`OnlyOnePurchase` (whatever the amount), leaving the state unchanged
under the host's revert semantics; consequently a non-zero purchased
amount is never changed by any later operation. -/
theorem second_purchase_always_rejected {s : State} {clk : Nat} (h : Reachable s clk)
    {u : Address} (hp : s.tokens_purchased u ≠ 0) :
    (∀ env amount, env.sender = u →
      purchase_tokens env s amount = .error .OnlyOnePurchase ∧
      run (Op.purchase amount) env s = s) ∧
    (∀ op env, (run op env s).tokens_purchased u = s.tokens_purchased u) := by
  obtain ⟨-, hni, -, -⟩ := inv_reachable h
  have hinit : s.initialized = true := by
    by_cases hb : s.initialized = false
    · exact absurd ((hni hb).2.2 u) hp
    · revert hb
      cases s.initialized <;> simp
  refine ⟨?_, fun op env => purchased_preserved op env s u hp⟩
  intro env amount hsender
  have hpos : 0 < s.tokens_purchased env.sender := by
    rw [hsender]
    omega
  have he : purchase_tokens env s amount = .error .OnlyOnePurchase := by
    simp [purchase_tokens, validate_is_initialized, hinit, hpos]
  exact ⟨he, by simp [run, exec, he]⟩

/-- Witness for C9: account 5 of `sNoVesting` (purchased 7) cannot
purchase again, and its purchased amount survives a further operation. -/
theorem second_purchase_always_rejected_witness :
    purchase_tokens ⟨5, 4, true, fun _ => none⟩ sNoVesting 3 =
      .error .OnlyOnePurchase ∧
    run (Op.purchase 3) ⟨5, 4, true, fun _ => none⟩ sNoVesting = sNoVesting ∧
    (run Op.claimUnlockedTokens ⟨5, 4, true, fun _ => none⟩
        sNoVesting).tokens_purchased 5 =
      sNoVesting.tokens_purchased 5 := by
  have H := @second_purchase_always_rejected sNoVesting 0 reach_sNoVesting 5 (by decide)
  obtain ⟨h1, h2⟩ := H.1 ⟨5, 4, true, fun _ => none⟩ 3 rfl
  exact ⟨h1, h2, H.2 Op.claimUnlockedTokens ⟨5, 4, true, fun _ => none⟩⟩

/-- Claim C10 (implicit): for a never-delegated `user`
(`delegatedClaimTokenId = 0`), `claim_tokens_by_nft` performs no
dedicated not-delegated check: it resolves the owner of token id 0
through the external registry (a registry error resolving to the zero
address) and fails with `OnlyOwner` exactly when that owner differs from
the caller; when the registry reports the caller as the owner of token
id 0, the call proceeds into the claim engine on behalf of the
never-delegated purchaser. -/
theorem claim_by_nft_without_delegation (env : Env) (s : State) (user : Address)
    (h0 : s.nft_claim_token_id user = 0) :
    (env.nftOwner 0 = none → resolvedNftOwner env 0 = 0) ∧
    (resolvedNftOwner env 0 ≠ env.sender →
      claim_tokens_by_nft env s user = .error .OnlyOwner) ∧
    (resolvedNftOwner env 0 = env.sender →
      claim_tokens_by_nft env s user = claim_tokens_from_user env s user env.sender) := by
  refine ⟨fun hn => by simp [resolvedNftOwner, hn], ?_, ?_⟩
  · intro hne
    simp [claim_tokens_by_nft, validate_sender_owns_nft, h0, hne]
  · intro hok
    simp [claim_tokens_by_nft, validate_sender_owns_nft, h0, hok]

/-- Witness for C10: account 5 of `sVesting` never delegated; a caller
the registry reports as owner of token id 0 reaches the engine, any
other caller gets `OnlyOwner`, and a reverting registry resolves to the
zero address. -/
theorem claim_by_nft_without_delegation_witness :
    resolvedNftOwner ⟨8, 50000, true, fun _ => none⟩ 0 = 0 ∧
    claim_tokens_by_nft ⟨8, 50000, true, fun _ => none⟩ sVesting 5 =
      .error .OnlyOwner ∧
    claim_tokens_by_nft ⟨8, 50000, true, fun i => if i = 0 then some 8 else none⟩
        sVesting 5 =
      claim_tokens_from_user ⟨8, 50000, true, fun i => if i = 0 then some 8 else none⟩
        sVesting 5 8 := by
  have H1 := claim_by_nft_without_delegation ⟨8, 50000, true, fun _ => none⟩
    sVesting 5 (by decide)
  have H2 := claim_by_nft_without_delegation
    ⟨8, 50000, true, fun i => if i = 0 then some 8 else none⟩ sVesting 5 (by decide)
  exact ⟨H1.1 rfl, H1.2.1 (by decide), H2.2.2 (by decide)⟩

end TokenSale





